import Mathlib

/-!
# Verification of the structhttp request-dispatch pipeline

Shallow embedding of the `structhttp` Go package: the method-eligibility
filter (`allowedMethod`), the default matching strategy
(`DefaultMatcherFunc`), argument binding and dispatch (`ServeHTTP`), and
response encoding (`writeResponse`), together with the status-coded
`Error` type and its unwrap chain.

Go interface values of type `error` are modelled by `GoError`; the JSON
(de)serialization collaborator (`encoding/json`) is modelled for the one
structured shape the package's methods use (`testArgs`), with canonical
field-order output matching `encoding/json` struct encoding.
-/

namespace StructHTTP

/-- A Go `error` value as produced and consumed by the package:
`errors.New` (`base`), the package's `*Error` carrying an HTTP status
code and wrapping an inner error (`statusErr`), and
`fmt.Errorf("...: %w", err)` wrapping (`wrap`, whose message is the
format text followed by the wrapped error's message). -/
inductive GoError where
  | base (msg : String)
  | statusErr (code : Nat) (err : GoError)
  | wrap (pre : String) (err : GoError)
deriving DecidableEq, Repr

/-- `Error() string` over the chain: the package's `(*Error).Error`
delegates to the wrapped error (`e.Err.Error()`); a `%w` wrap yields
the format text followed by the wrapped message. -/
def GoError.errMsg : GoError → String
  | .base msg => msg
  | .statusErr _ e => e.errMsg
  | .wrap p e => p ++ e.errMsg

/-- `errors.As(err, &statusCoder)` with target `HTTPStatusCoder`: walk
the chain via `Unwrap`, stopping at the first value implementing
`HTTPStatusCoder` (only `*Error`, i.e. `statusErr`, does) and reporting
its `HTTPStatusCode()`. `base` has no `Unwrap`; `wrap` and `statusErr`
unwrap to their inner error. -/
def findStatusCoder : GoError → Option Nat
  | .base _ => none
  | .statusErr code _ => some code
  | .wrap _ e => findStatusCoder e

/-- The test struct `testArgs { ID int; Name string }` used as the
structured-document parameter/return shape. -/
structure TestArgs where
  ID : Int
  Name : String
deriving DecidableEq, Repr

/-- Left brace character. -/
def lbrace : Char := Char.ofNat 123

/-- Right brace character. -/
def rbrace : Char := Char.ofNat 125

/-- `encoding/json` canonical struct output for `testArgs`: fields in
declared order, no added whitespace. (Name strings needing escapes are
outside the modelled fragment.) -/
def encodeTestArgs (a : TestArgs) : String :=
  "\x7b\"ID\":" ++ toString a.ID ++ ",\"Name\":\"" ++ a.Name ++ "\"\x7d"

/-- Consume an exact character sequence, returning the rest. -/
def expectChars : List Char → List Char → Option (List Char)
  | [], rest => some rest
  | _ :: _, [] => none
  | c :: cs, d :: ds => if c = d then expectChars cs ds else none

/-- Parse a nonempty run of decimal digits as a `Nat`. -/
def parseNatChars (cs : List Char) : Option (Nat × List Char) :=
  let ds := cs.takeWhile Char.isDigit
  if ds.isEmpty then none
  else some (ds.foldl (fun acc c => acc * 10 + (c.toNat - 48)) 0, cs.drop ds.length)

/-- Parse a JSON integer (optional leading minus). -/
def parseIntChars : List Char → Option (Int × List Char)
  | [] => none
  | c :: rest =>
    if c = '-' then
      match parseNatChars rest with
      | some (n, r) => some (-(n : Int), r)
      | none => none
    else
      match parseNatChars (c :: rest) with
      | some (n, r) => some ((n : Int), r)
      | none => none

/-- Parse a JSON string literal without escape sequences. -/
def parseStrChars : List Char → Option (String × List Char)
  | [] => none
  | c :: rest =>
    if c = '"' then
      let content := rest.takeWhile (fun d => d != '"' && d != '\\')
      match rest.drop content.length with
      | d :: r => if d = '"' then some (String.mk content, r) else none
      | [] => none
    else none

/-- Parse the canonical `testArgs` document
`\x7b"ID":<int>,"Name":"<string>"\x7d` in full. -/
def parseTestArgsChars (cs : List Char) : Option TestArgs :=
  match expectChars (lbrace :: ['"', 'I', 'D', '"', ':']) cs with
  | none => none
  | some r1 =>
    match parseIntChars r1 with
    | none => none
    | some (n, r2) =>
      match expectChars [',', '"', 'N', 'a', 'm', 'e', '"', ':'] r2 with
      | none => none
      | some r3 =>
        match parseStrChars r3 with
        | none => none
        | some (s, r4) =>
          match r4 with
          | [c] => if c = rbrace then some ⟨n, s⟩ else none
          | _ => none

/-- `json.NewDecoder(r.Body).Decode(arg)` for `*testArgs`: an empty body
yields the decoder's `EOF` error; otherwise parse the canonical document
or fail with a decode-error message. -/
def decodeTestArgs (body : String) : Except String TestArgs :=
  if body.isEmpty then .error "EOF"
  else
    match parseTestArgsChars body.data with
    | some a => .ok a
    | none => .error "invalid request body"

/-- Declared shapes of application-data parameters occurring in the
package and its tests: `*testArgs`, `int`, `string`. -/
inductive ArgType where
  | testArgsType
  | intType
  | stringType
deriving DecidableEq, Repr

/-- A runtime application-data value (as carried in Go through `any`). -/
inductive GoValue where
  | testArgsVal (a : TestArgs)
  | intVal (n : Int)
  | strVal (s : String)
deriving DecidableEq, Repr

/-- A declared method parameter (receiver excluded), classified the way
`ServeHTTP` classifies `In(i)`: `context.Context`, `*http.Request`, or
anything else (an application-data parameter of some shape). -/
inductive ParamType where
  | ctxParam
  | reqParam
  | extraParam (t : ArgType)
deriving DecidableEq, Repr

/-- A declared return shape; `allowedMethod` only consults whether the
type implements the `error` interface. -/
structure RetType where
  implementsError : Bool
deriving DecidableEq, Repr

/-- A runtime return value produced by a method call. `errRet` is a slot
whose static type implements `error` (value `none` = nil interface);
`bytesRet` is a dynamic `[]byte` value (modelled as its byte string);
`valRet` is any other value, described by what the JSON encoder does
with it. -/
inductive EncValue where
  | jsonOf (doc : String)
  | ofTestArgs (a : TestArgs)
  | unsupported (msg : String)
deriving DecidableEq, Repr

inductive RetValue where
  | errRet (e : Option GoError)
  | bytesRet (b : String)
  | valRet (v : EncValue)
deriving DecidableEq, Repr

/-- The outcome of handling one request: a normal HTTP response with a
status code and a body, or a panic propagated out of the handler
(surfaced to the hosting HTTP server's fault handling, never written as
a response). An implicit status of 200 models writing a body without an
explicit `WriteHeader`. -/
inductive Response where
  | normal (status : Nat) (body : String)
  | panicFault (msg : String)
deriving DecidableEq, Repr

/-- The incoming `*http.Request` as the package consumes it: HTTP
method, URL path, and body. -/
structure Request where
  method : String
  path : String
  body : String
deriving DecidableEq, Repr

/-- `MatcherFunc`: given the request, a method name and the method's
extra-parameter shapes, produce (arguments, matches, error). -/
def MatcherFunc : Type :=
  Request → String → List ArgType → List GoValue × Bool × Option GoError

/-- Decoding the request body into one declared arg shape, as
`DefaultMatcherFunc` does with `json.NewDecoder(r.Body).Decode`. -/
def decodeArg : ArgType → String → Except String GoValue
  | .testArgsType, body => (decodeTestArgs body).map .testArgsVal
  | .intType, body =>
    if body.isEmpty then .error "EOF"
    else
      match parseIntChars body.data with
      | some (n, []) => .ok (.intVal n)
      | _ => .error "invalid request body"
  | .stringType, body =>
    if body.isEmpty then .error "EOF"
    else
      match parseStrChars body.data with
      | some (s, []) => .ok (.strVal s)
      | _ => .error "invalid request body"

/-- `DefaultMatcherFunc` (options.go): no match unless the HTTP method
is POST and the path is `/`+name or name; with no extra parameters,
match with no arguments; with more than one, no match; with exactly
one, decode the body into it — a decode failure still matches and
carries `NewError(400, fmt.Errorf("failed to decode request body: %w",
err))`. -/
def DefaultMatcherFunc (r : Request) (methodName : String)
    (methodArgs : List ArgType) : List GoValue × Bool × Option GoError :=
  if r.method != "POST" || (r.path != "/" ++ methodName && r.path != methodName) then
    ([], false, none)
  else
    match methodArgs with
    | [] => ([], true, none)
    | _ :: _ :: _ => ([], false, none)
    | [argType] =>
      match decodeArg argType r.body with
      | .error msg =>
        ([], true, some (.statusErr 400 (.wrap "failed to decode request body: " (.base msg))))
      | .ok v => ([v], true, none)

/-- An argument as actually bound by `ServeHTTP`'s binding loop:
`r.Context()`, the `*http.Request` itself, or a Matcher-supplied
application-data value. -/
inductive BoundArg where
  | ctxOf (r : Request)
  | reqOf (r : Request)
  | dataArg (v : GoValue)
deriving DecidableEq, Repr

/-- One exposed-method candidate: its name, declared parameters
(receiver excluded), declared return shapes, and its behaviour when
invoked with bound arguments (the receiver is captured in `impl`). -/
structure GoMethod where
  name : String
  params : List ParamType
  rets : List RetType
  impl : List BoundArg → List RetValue

/-- `allowedMethod` (structhttp.go): reject more than 2 returns; accept
0; with at least 1, if there are 2 the last must implement `error`. -/
def allowedMethod (rets : List RetType) : Bool :=
  let out := rets.length
  if out > 2 then false
  else if out == 0 then true
  else
    let lastOut := rets.getLastD ⟨false⟩
    if out > 1 && !lastOut.implementsError then false
    else true

/-- The extra-parameter shapes `ServeHTTP` computes before calling the
matcher: declared parameter types that are neither `context.Context`
nor `*http.Request`, in declaration order. -/
def argTypesOf (params : List ParamType) : List ArgType :=
  params.filterMap fun p =>
    match p with
    | .extraParam t => some t
    | _ => none

/-- `ServeHTTP`'s argument-binding loop: context and request parameters
are injected from the request; every other parameter consumes the next
matcher-supplied value, panicking `"not enough arguments to <name>
method"` when the values run out; after the loop, leftover values panic
`"too many arguments to <name> method"`. -/
def bindParams (name : String) (r : Request) :
    List ParamType → List GoValue → Except String (List BoundArg)
  | [], args =>
    if args.isEmpty then .ok []
    else .error ("too many arguments to " ++ name ++ " method")
  | .ctxParam :: ps, args => (bindParams name r ps args).map (.ctxOf r :: ·)
  | .reqParam :: ps, args => (bindParams name r ps args).map (.reqOf r :: ·)
  | .extraParam _ :: _, [] => .error ("not enough arguments to " ++ name ++ " method")
  | .extraParam _ :: ps, v :: vs => (bindParams name r ps vs).map (.dataArg v :: ·)

/-- Encoding of `out[0]` after the error checks of `writeResponse`: a
dynamic `[]byte` is written verbatim; otherwise the value is
JSON-encoded with a trailing newline (`json.Encoder.Encode`), and an
encoding failure panics with the encoder's error. A nil error interface
in the first slot encodes as `null`; a non-nil error value encodes as
its (empty-object) struct encoding — no claim depends on that case. -/
def encodeFirst : RetValue → Response
  | .bytesRet b => .normal 200 b
  | .valRet (.jsonOf doc) => .normal 200 (doc ++ "\n")
  | .valRet (.ofTestArgs a) => .normal 200 (encodeTestArgs a ++ "\n")
  | .valRet (.unsupported msg) => .panicFault msg
  | .errRet none => .normal 200 "null\n"
  | .errRet (some _) => .normal 200 ("\x7b\x7d" ++ "\n")

/-- `writeResponse` (structhttp.go): no returns → 204; if the last
return's static type implements `error` and the value is non-nil,
`http.Error` with the error's message and its status code (500 unless
`errors.As` finds an `HTTPStatusCoder` in the chain); a lone nil error
→ 204; otherwise encode the first return value. -/
def writeResponse (out : List RetValue) : Response :=
  match out with
  | [] => .normal 204 ""
  | first :: rest =>
    match (first :: rest).getLastD first with
    | .errRet (some err) =>
      .normal ((findStatusCoder err).getD 500) (err.errMsg ++ "\n")
    | .errRet none =>
      if rest.isEmpty then .normal 204 ""
      else encodeFirst first
    | _ => encodeFirst first

/-- The handler: the filtered method table and the matcher. -/
structure StructHandler where
  methods : List GoMethod
  matcher : MatcherFunc

/-- `Handler` construction: every method of the target whose signature
passes `allowedMethod` is kept, in the target's method order; the rest
are silently excluded. -/
def Handler (methods : List GoMethod) (matcher : MatcherFunc) : StructHandler :=
  { methods := methods.filter (fun m => allowedMethod m.rets), matcher := matcher }

/-- The method-iteration loop of `ServeHTTP`: compute the candidate's
extra shapes, consult the matcher; on no match continue; on a match
with a matcher error, route the error to `writeResponse` as a lone
error return; on a clean match bind arguments (binding panics
propagate) and write the invocation outcome. Exhaustion is
`http.NotFound`. -/
def serveList (matcher : MatcherFunc) (r : Request) : List GoMethod → Response
  | [] => .normal 404 "404 page not found\n"
  | m :: rest =>
    let res := matcher r m.name (argTypesOf m.params)
    let args := res.1
    let err := res.2.2
    if !res.2.1 then serveList matcher r rest
    else
      match err with
      | some e => writeResponse [.errRet (some e)]
      | none =>
        match bindParams m.name r m.params args with
        | .error msg => .panicFault msg
        | .ok bound => writeResponse (m.impl bound)

/-- `(*structHandler).ServeHTTP`. -/
def ServeHTTP (sh : StructHandler) (r : Request) : Response :=
  serveList sh.matcher r sh.methods

/-- A chain of `%w` wraps around an inner error. -/
def wrapChain (msgs : List String) (e : GoError) : GoError :=
  msgs.foldr .wrap e

/-- Number of application-data parameters in a declared signature. -/
def extraCount (params : List ParamType) : Nat := (argTypesOf params).length

/-- Application-data parameters among the first `i` declared ones. -/
def extrasBefore (params : List ParamType) (i : Nat) : Nat :=
  extraCount (params.take i)

/-- The binding described positionally: declared parameter `i` receives
the request's execution context, the request object itself, or the
`extrasBefore params i`-th matcher-supplied value. -/
def specBound (r : Request) (params : List ParamType) (args : List GoValue) :
    List BoundArg :=
  (List.range params.length).map fun i =>
    match params.getD i .ctxParam with
    | .ctxParam => .ctxOf r
    | .reqParam => .reqOf r
    | .extraParam _ => .dataArg (args.getD (extrasBefore params i) (.strVal ""))

/-! ## Concrete methods of the test target used as witnesses -/

/-- The test target's `Inputs(ctx context.Context, param *testArgs)
(*testArgs, error)` method: returns its argument together with the
app's stored error. -/
def inputsMethod (appErr : Option GoError) : GoMethod where
  name := "Inputs"
  params := [.ctxParam, .extraParam .testArgsType]
  rets := [⟨false⟩, ⟨true⟩]
  impl := fun args =>
    match args with
    | [.ctxOf _, .dataArg (.testArgsVal a)] => [.valRet (.ofTestArgs a), .errRet appErr]
    | _ => []

/-- A method with three return values, which the eligibility filter
must exclude from the table. -/
def threeRetsMethod : GoMethod where
  name := "ThreeRets"
  params := []
  rets := [⟨false⟩, ⟨false⟩, ⟨true⟩]
  impl := fun _ => [.valRet (.jsonOf "0"), .valRet (.jsonOf "0"), .errRet none]

/-! ## Helper lemmas -/

/-- The dispatch loop skips every candidate the matcher rejects. -/
theorem serveList_append_of_no_match (matcher : MatcherFunc) (r : Request)
    (pre rest : List GoMethod)
    (h : ∀ m ∈ pre, (matcher r m.name (argTypesOf m.params)).2.1 = false) :
    serveList matcher r (pre ++ rest) = serveList matcher r rest := by
  induction pre with
  | nil => rfl
  | cons m ms ih =>
    have hm := h m (List.mem_cons_self m ms)
    have hrec := ih fun m' hm' => h m' (List.mem_cons_of_mem m hm')
    simp [serveList, hm, hrec]

/-! ## Claims -/

/-- C1: the method-eligibility filter accepts a signature iff it has 0
return values, exactly 1 return value of any shape, or exactly 2 whose
second implements the error interface; and `Handler`'s exposed-method
table keeps exactly the methods that pass the filter. -/
theorem allowedMethod_characterization :
    (∀ rets : List RetType, allowedMethod rets = true ↔
      rets = [] ∨ (∃ t, rets = [t]) ∨
        ∃ t₁ t₂, rets = [t₁, t₂] ∧ t₂.implementsError = true) ∧
    (∀ (ms : List GoMethod) (f : MatcherFunc) (m : GoMethod),
      m ∈ (Handler ms f).methods ↔ m ∈ ms ∧ allowedMethod m.rets = true) := by
  constructor
  · intro rets
    match rets with
    | [] => simp [allowedMethod]
    | [t] => simp [allowedMethod]
    | [t₁, t₂] =>
      cases h : t₂.implementsError
      · simp [allowedMethod, List.getLastD, h]
      · have hall : allowedMethod [t₁, t₂] = true := by
          simp [allowedMethod, List.getLastD, h]
        exact iff_of_true hall (Or.inr (Or.inr ⟨t₁, t₂, rfl, h⟩))
    | t₁ :: t₂ :: t₃ :: ts => simp [allowedMethod]
  · intro ms f m
    simp [Handler, List.mem_filter]

/-- C2: the default matcher reports a match iff the HTTP method is POST,
the path is `/`+name or name, and the candidate has at most one
application-data parameter. -/
theorem defaultMatcher_matched_iff (r : Request) (methodName : String)
    (ts : List ArgType) :
    (DefaultMatcherFunc r methodName ts).2.1 = true ↔
      r.method = "POST" ∧ (r.path = "/" ++ methodName ∨ r.path = methodName) ∧
        ts.length ≤ 1 := by
  unfold DefaultMatcherFunc
  by_cases h1 : r.method = "POST"
  · by_cases hp : r.path = "/" ++ methodName ∨ r.path = methodName
    · have hcond : (r.method != "POST" ||
          (r.path != "/" ++ methodName && r.path != methodName)) = false := by
        rcases hp with h | h <;> simp [h1, h]
      rw [hcond]
      simp only [Bool.false_eq_true, if_false]
      match ts with
      | [] => simp [h1, hp]
      | [t] =>
        cases hdec : decodeArg t r.body <;> simp [hdec, h1, hp]
      | t₁ :: t₂ :: rest =>
        simp [h1, hp]
    · have hcond : (r.method != "POST" ||
          (r.path != "/" ++ methodName && r.path != methodName)) = true := by
        push_neg at hp
        simp [h1, Bool.and_eq_true, bne_iff_ne]
        exact ⟨hp.1, hp.2⟩
      rw [hcond]
      simp [hp]
  · have hcond : (r.method != "POST" ||
        (r.path != "/" ++ methodName && r.path != methodName)) = true := by
      simp [Bool.or_eq_true, bne_iff_ne]
      exact Or.inl h1
    rw [hcond]
    simp [h1]

/-- C4: a lone error-shaped return maps to 204 when nil; to 500 with the
error's display text when non-nil and no `HTTPStatusCoder` is found in
its chain; and to the carried code when one is found. -/
theorem single_error_return_mapping :
    writeResponse [.errRet none] = .normal 204 "" ∧
    (∀ err : GoError, findStatusCoder err = none →
      writeResponse [.errRet (some err)] = .normal 500 (err.errMsg ++ "\n")) ∧
    (∀ (err : GoError) (c : Nat), findStatusCoder err = some c →
      writeResponse [.errRet (some err)] = .normal c (err.errMsg ++ "\n")) := by
  refine ⟨rfl, ?_, ?_⟩
  · intro err h
    simp [writeResponse, List.getLastD, h]
  · intro err c h
    simp [writeResponse, List.getLastD, h]

/-- C4 witness: a plain `errors.New("test error")` yields 500 with its
text; `NewError(400, errors.New("invalid request"))` yields 400. -/
theorem single_error_return_mapping_witness :
    writeResponse [.errRet (some (.base "test error"))] = .normal 500 "test error\n" ∧
    writeResponse [.errRet (some (.statusErr 400 (.base "invalid request")))] =
      .normal 400 "invalid request\n" :=
  ⟨single_error_return_mapping.2.1 (.base "test error") rfl,
   single_error_return_mapping.2.2 (.statusErr 400 (.base "invalid request")) 400 rfl⟩

/-- C7: a first return value that is a dynamic byte sequence, with a nil
(or absent) trailing error, is written verbatim as the body with no
transformation and implied status 200. -/
theorem bytes_written_verbatim :
    (∀ b : String, writeResponse [.bytesRet b] = .normal 200 b) ∧
    (∀ b : String, writeResponse [.bytesRet b, .errRet none] = .normal 200 b) :=
  ⟨fun _ => rfl, fun _ => rfl⟩

/-- C9: a declared-successful result the JSON encoder cannot serialize
makes the handler panic with the encoder's error — the request cycle
faults and no normal HTTP response is produced. -/
theorem unencodable_result_panics :
    (∀ msg : String, writeResponse [.valRet (.unsupported msg)] = .panicFault msg) ∧
    (∀ msg : String, writeResponse [.valRet (.unsupported msg), .errRet none] =
      .panicFault msg) :=
  ⟨fun _ => rfl, fun _ => rfl⟩

/-- C10: status-code detection follows the unwrap chain — an error that
(transitively) wraps a status-coded error produces that error's code,
not the default 500. -/
theorem wrapped_status_code_found (msgs : List String) (c : Nat) (inner : GoError)
    (_hne : msgs ≠ []) :
    writeResponse [.errRet (some (wrapChain msgs (.statusErr c inner)))] =
      .normal c ((wrapChain msgs (.statusErr c inner)).errMsg ++ "\n") := by
  have hfind : ∀ ms : List String,
      findStatusCoder (wrapChain ms (.statusErr c inner)) = some c := by
    intro ms
    induction ms with
    | nil => rfl
    | cons m ms ih => simpa [wrapChain, findStatusCoder] using ih
  simp [writeResponse, List.getLastD, hfind msgs]

/-- C10 witness: a single non-status-coded wrap around a 404-coded error
responds 404 with the combined message. -/
theorem wrapped_status_code_found_witness :
    writeResponse [.errRet (some (wrapChain ["wrapped: "] (.statusErr 404 (.base "missing"))))] =
      .normal 404 "wrapped: missing\n" := by
  have h := wrapped_status_code_found ["wrapped: "] 404 (.base "missing") (by simp)
  simpa [wrapChain, GoError.errMsg] using h

/-- C3: under the default matcher, a request whose method and path hit a
candidate with exactly one application-data parameter, but whose body
fails to decode, still matches and is answered with status 400 and the
descriptive decode-failure text — not 404 or 500 — without invoking the
method (the conclusion holds for every `impl`, which is universally
quantified inside `m`). -/
theorem decode_failure_yields_400 (pre rest : List GoMethod) (m : GoMethod)
    (r : Request) (t : ArgType) (msg : String)
    (hpre : ∀ m' ∈ pre, (DefaultMatcherFunc r m'.name (argTypesOf m'.params)).2.1 = false)
    (hargs : argTypesOf m.params = [t])
    (hmeth : r.method = "POST")
    (hpath : r.path = "/" ++ m.name ∨ r.path = m.name)
    (hdec : decodeArg t r.body = .error msg) :
    ServeHTTP ⟨pre ++ m :: rest, DefaultMatcherFunc⟩ r =
      .normal 400 ("failed to decode request body: " ++ msg ++ "\n") := by
  have hskip := serveList_append_of_no_match DefaultMatcherFunc r pre (m :: rest) hpre
  have hcond : (r.method != "POST" || (r.path != "/" ++ m.name && r.path != m.name)) = false := by
    rcases hpath with h | h <;> simp [hmeth, h]
  unfold ServeHTTP
  show serveList DefaultMatcherFunc r (pre ++ m :: rest) = _
  rw [hskip]
  simp only [serveList, DefaultMatcherFunc, hargs, hcond, Bool.false_eq_true, if_false,
    hdec]
  simp [writeResponse, List.getLastD, findStatusCoder, GoError.errMsg,
    String.append_assoc]

/-- C3 witness: the `Inputs` method at `POST /Inputs` with an empty body
is matched and answered 400 with the decoder's `EOF` text. -/
theorem decode_failure_yields_400_witness :
    ServeHTTP ⟨[inputsMethod none], DefaultMatcherFunc⟩ ⟨"POST", "/Inputs", ""⟩ =
      .normal 400 ("failed to decode request body: " ++ "EOF" ++ "\n") :=
  decode_failure_yields_400 [] [] (inputsMethod none) ⟨"POST", "/Inputs", ""⟩
    .testArgsType "EOF" (by simp) rfl rfl (Or.inl rfl) rfl

/-- C6: when the matcher rejects every exposed method, the handler
responds 404 (`http.NotFound`) and invokes nothing. -/
theorem no_match_yields_404 (sh : StructHandler) (r : Request)
    (h : ∀ m ∈ sh.methods, (sh.matcher r m.name (argTypesOf m.params)).2.1 = false) :
    ServeHTTP sh r = .normal 404 "404 page not found\n" := by
  unfold ServeHTTP
  rw [← List.append_nil sh.methods,
    serveList_append_of_no_match sh.matcher r sh.methods [] h]
  rfl

/-- C6 witness: a target whose only method has three return values is
filtered out, so a request addressed to its name gets 404. -/
theorem no_match_yields_404_witness :
    ServeHTTP (Handler [threeRetsMethod] DefaultMatcherFunc) ⟨"POST", "/ThreeRets", ""⟩ =
      .normal 404 "404 page not found\n" :=
  no_match_yields_404 (Handler [threeRetsMethod] DefaultMatcherFunc)
    ⟨"POST", "/ThreeRets", ""⟩
    (by
      intro m hm
      rw [show (Handler [threeRetsMethod] DefaultMatcherFunc).methods = [] from rfl] at hm
      exact absurd hm (List.not_mem_nil m))

/-- C8: round-trip through the `Inputs` method — any request body that
decodes as a `testArgs` document is answered 200 with the canonical
re-encoding of the decoded value (the request body up to canonical JSON
formatting) followed by the encoder's newline. -/
theorem inputs_roundtrip (body : String) (a : TestArgs)
    (hdec : decodeTestArgs body = .ok a) :
    ServeHTTP ⟨[inputsMethod none], DefaultMatcherFunc⟩ ⟨"POST", "/Inputs", body⟩ =
      .normal 200 (encodeTestArgs a ++ "\n") := by
  simp only [ServeHTTP, serveList, inputsMethod, argTypesOf, List.filterMap]
  simp only [DefaultMatcherFunc, decodeArg, hdec]
  simp [Except.map, bindParams, writeResponse, List.getLastD, encodeFirst]

/-- C8 witness: the body `\x7b"ID":1,"Name":"foo"\x7d` is decoded,
returned unchanged, and reproduced byte-for-byte in the 200 response
body (plus the encoder's trailing newline). -/
theorem inputs_roundtrip_witness :
    decodeTestArgs "\x7b\"ID\":1,\"Name\":\"foo\"\x7d" = .ok ⟨1, "foo"⟩ ∧
    ServeHTTP ⟨[inputsMethod none], DefaultMatcherFunc⟩
        ⟨"POST", "/Inputs", "\x7b\"ID\":1,\"Name\":\"foo\"\x7d"⟩ =
      .normal 200 ("\x7b\"ID\":1,\"Name\":\"foo\"\x7d" ++ "\n") :=
  ⟨rfl, inputs_roundtrip "\x7b\"ID\":1,\"Name\":\"foo\"\x7d" ⟨1, "foo"⟩ rfl⟩

/-! ## Binding discipline (C5) -/

theorem extraCount_ctx (ps : List ParamType) :
    extraCount (.ctxParam :: ps) = extraCount ps := by
  simp [extraCount, argTypesOf, List.filterMap_cons]

theorem extraCount_req (ps : List ParamType) :
    extraCount (.reqParam :: ps) = extraCount ps := by
  simp [extraCount, argTypesOf, List.filterMap_cons]

theorem extraCount_extra (t : ArgType) (ps : List ParamType) :
    extraCount (.extraParam t :: ps) = extraCount ps + 1 := by
  simp [extraCount, argTypesOf, List.filterMap_cons]

theorem extrasBefore_ctx_succ (ps : List ParamType) (i : Nat) :
    extrasBefore (.ctxParam :: ps) (i + 1) = extrasBefore ps i := by
  simp [extrasBefore, List.take_succ_cons, extraCount_ctx]

theorem extrasBefore_req_succ (ps : List ParamType) (i : Nat) :
    extrasBefore (.reqParam :: ps) (i + 1) = extrasBefore ps i := by
  simp [extrasBefore, List.take_succ_cons, extraCount_req]

theorem extrasBefore_extra_succ (t : ArgType) (ps : List ParamType) (i : Nat) :
    extrasBefore (.extraParam t :: ps) (i + 1) = extrasBefore ps i + 1 := by
  simp [extrasBefore, List.take_succ_cons, extraCount_extra]

theorem specBound_cons_ctx (r : Request) (ps : List ParamType) (args : List GoValue) :
    specBound r (.ctxParam :: ps) args = .ctxOf r :: specBound r ps args := by
  unfold specBound
  rw [List.length_cons, List.range_succ_eq_map, List.map_cons, List.map_map]
  refine congrArg₂ List.cons rfl ?_
  refine List.map_congr_left fun i _ => ?_
  simp [Function.comp, List.getD_cons_succ, extrasBefore_ctx_succ]

theorem specBound_cons_req (r : Request) (ps : List ParamType) (args : List GoValue) :
    specBound r (.reqParam :: ps) args = .reqOf r :: specBound r ps args := by
  unfold specBound
  rw [List.length_cons, List.range_succ_eq_map, List.map_cons, List.map_map]
  refine congrArg₂ List.cons rfl ?_
  refine List.map_congr_left fun i _ => ?_
  simp [Function.comp, List.getD_cons_succ, extrasBefore_req_succ]

theorem specBound_cons_extra (r : Request) (t : ArgType) (ps : List ParamType)
    (v : GoValue) (vs : List GoValue) :
    specBound r (.extraParam t :: ps) (v :: vs) = .dataArg v :: specBound r ps vs := by
  unfold specBound
  rw [List.length_cons, List.range_succ_eq_map, List.map_cons, List.map_map]
  refine congrArg₂ List.cons rfl ?_
  refine List.map_congr_left fun i _ => ?_
  simp [Function.comp, List.getD_cons_succ, extrasBefore_extra_succ]

theorem bindParams_ok_of_exact (name : String) (r : Request) :
    ∀ (params : List ParamType) (args : List GoValue),
      args.length = extraCount params →
      bindParams name r params args = .ok (specBound r params args) := by
  intro params
  induction params with
  | nil =>
    intro args h
    have hnil : args = [] :=
      List.length_eq_zero.mp (by simpa [extraCount, argTypesOf] using h)
    subst hnil
    rfl
  | cons p ps ih =>
    intro args h
    match p with
    | .ctxParam =>
      rw [specBound_cons_ctx]
      have hrec := ih args (by rwa [extraCount_ctx] at h)
      simp [bindParams, hrec, Except.map]
    | .reqParam =>
      rw [specBound_cons_req]
      have hrec := ih args (by rwa [extraCount_req] at h)
      simp [bindParams, hrec, Except.map]
    | .extraParam t =>
      match args with
      | [] =>
        rw [extraCount_extra] at h
        simp at h
      | v :: vs =>
        rw [specBound_cons_extra]
        have hv : vs.length = extraCount ps := by
          rw [extraCount_extra] at h
          simpa using h
        have hrec := ih vs hv
        simp [bindParams, hrec, Except.map]

theorem bindParams_error_of_short (name : String) (r : Request) :
    ∀ (params : List ParamType) (args : List GoValue),
      args.length < extraCount params →
      bindParams name r params args =
        .error ("not enough arguments to " ++ name ++ " method") := by
  intro params
  induction params with
  | nil =>
    intro args h
    simp [extraCount, argTypesOf] at h
  | cons p ps ih =>
    intro args h
    match p with
    | .ctxParam =>
      have hrec := ih args (by rwa [extraCount_ctx] at h)
      simp [bindParams, hrec, Except.map]
    | .reqParam =>
      have hrec := ih args (by rwa [extraCount_req] at h)
      simp [bindParams, hrec, Except.map]
    | .extraParam t =>
      match args with
      | [] => rfl
      | v :: vs =>
        have hv : vs.length < extraCount ps := by
          rw [extraCount_extra] at h
          simpa [Nat.succ_lt_succ_iff] using h
        have hrec := ih vs hv
        simp [bindParams, hrec, Except.map]

theorem bindParams_error_of_excess (name : String) (r : Request) :
    ∀ (params : List ParamType) (args : List GoValue),
      extraCount params < args.length →
      bindParams name r params args =
        .error ("too many arguments to " ++ name ++ " method") := by
  intro params
  induction params with
  | nil =>
    intro args h
    match args with
    | [] => simp at h
    | v :: vs => rfl
  | cons p ps ih =>
    intro args h
    match p with
    | .ctxParam =>
      have hrec := ih args (by rwa [extraCount_ctx] at h)
      simp [bindParams, hrec, Except.map]
    | .reqParam =>
      have hrec := ih args (by rwa [extraCount_req] at h)
      simp [bindParams, hrec, Except.map]
    | .extraParam t =>
      match args with
      | [] =>
        rw [extraCount_extra] at h
        simp at h
      | v :: vs =>
        have hv : extraCount ps < vs.length := by
          rw [extraCount_extra] at h
          simpa [Nat.succ_lt_succ_iff] using h
        have hrec := ih vs hv
        simp [bindParams, hrec, Except.map]

/-- C5: on a clean match the dispatcher binds the full argument list in
declared order — context parameters get the request's context, request
parameters get the request itself, application-data parameters consume
the matcher's values in order — and an argument count differing from
the number of application-data parameters is a panic of the request
cycle (`not enough` / `too many arguments`), never an HTTP response. -/
theorem binding_discipline :
    (∀ (name : String) (r : Request) (params : List ParamType) (args : List GoValue),
      args.length = extraCount params →
      bindParams name r params args = .ok (specBound r params args)) ∧
    (∀ (name : String) (r : Request) (params : List ParamType) (args : List GoValue),
      args.length < extraCount params →
      bindParams name r params args =
        .error ("not enough arguments to " ++ name ++ " method")) ∧
    (∀ (name : String) (r : Request) (params : List ParamType) (args : List GoValue),
      extraCount params < args.length →
      bindParams name r params args =
        .error ("too many arguments to " ++ name ++ " method")) ∧
    (∀ (matcher : MatcherFunc) (r : Request) (m : GoMethod) (rest : List GoMethod)
        (args : List GoValue),
      matcher r m.name (argTypesOf m.params) = (args, true, none) →
      args.length ≠ extraCount m.params →
      serveList matcher r (m :: rest) =
          .panicFault ("not enough arguments to " ++ m.name ++ " method") ∨
      serveList matcher r (m :: rest) =
          .panicFault ("too many arguments to " ++ m.name ++ " method")) := by
  refine ⟨bindParams_ok_of_exact, bindParams_error_of_short,
    bindParams_error_of_excess, ?_⟩
  intro matcher r m rest args hmatch hlen
  rcases Nat.lt_or_ge args.length (extraCount m.params) with hlt | hge
  · left
    simp [serveList, hmatch, bindParams_error_of_short m.name r m.params args hlt]
  · have hgt : extraCount m.params < args.length :=
      lt_of_le_of_ne hge fun e => hlen e.symm
    right
    simp [serveList, hmatch, bindParams_error_of_excess m.name r m.params args hgt]

/-- C5 witness: concrete bindings for an `Inputs`-shaped method and the
two arity panics, including the dispatch-level panic. -/
theorem binding_discipline_witness :
    bindParams "Inputs" ⟨"POST", "/Inputs", ""⟩
        [.ctxParam, .extraParam .testArgsType] [.testArgsVal ⟨1, "foo"⟩] =
      .ok [.ctxOf ⟨"POST", "/Inputs", ""⟩, .dataArg (.testArgsVal ⟨1, "foo"⟩)] ∧
    bindParams "Inputs" ⟨"POST", "/Inputs", ""⟩
        [.ctxParam, .extraParam .testArgsType] [] =
      .error "not enough arguments to Inputs method" ∧
    bindParams "NoResult" ⟨"POST", "/NoResult", ""⟩ [] [.intVal 0] =
      .error "too many arguments to NoResult method" ∧
    (serveList (fun _ _ _ => ([], true, none)) ⟨"POST", "/Inputs", ""⟩
          [inputsMethod none] =
        .panicFault ("not enough arguments to " ++ "Inputs" ++ " method") ∨
     serveList (fun _ _ _ => ([], true, none)) ⟨"POST", "/Inputs", ""⟩
          [inputsMethod none] =
        .panicFault ("too many arguments to " ++ "Inputs" ++ " method")) := by
  refine ⟨?_, ?_, ?_, ?_⟩
  · exact (binding_discipline.1 "Inputs" ⟨"POST", "/Inputs", ""⟩
      [.ctxParam, .extraParam .testArgsType] [.testArgsVal ⟨1, "foo"⟩] rfl).trans
      (by rfl)
  · exact binding_discipline.2.1 "Inputs" ⟨"POST", "/Inputs", ""⟩
      [.ctxParam, .extraParam .testArgsType] [] (by decide)
  · exact binding_discipline.2.2.1 "NoResult" ⟨"POST", "/NoResult", ""⟩ [] [.intVal 0]
      (by decide)
  · exact binding_discipline.2.2.2 (fun _ _ _ => ([], true, none))
      ⟨"POST", "/Inputs", ""⟩ (inputsMethod none) [] [] rfl (by decide)

end StructHTTP
